import Mathlib

set_option autoImplicit false

namespace Rack

/-!
Shallow embedding of the build-and-release pipeline of the `rack` repository:
the incremental build upload protocol, the build submission / log-streaming /
status-polling orchestration of `src/cmd/convox/builds.go`, and the release
store and promoter of the provider package (`src/unnamed/part_000`).

External collaborators (the HTTP client, DynamoDB, CloudFormation, the local
filesystem, sha256, the dockerignore matcher) are modelled as explicit inputs:
an environment record carries the result each remote or filesystem call would
return, and executions also produce the list of calls they issued, so that
frame properties ("no missing-hash query issued") are statable.
-/

/-- Read-only projection of a remote build record (`client.Build`), with the
fields the orchestration logic reads: identifier, status string, release id. -/
structure Build where
  id : String
  status : String
  release : String
deriving Repr, DecidableEq

/-- The remote / local side-effecting calls an execution can issue. -/
inductive Event where
  | getSystem
  | indexMissing
  | buildArchive
  | indexUpdate
  | createBuildIndex
  | createBuildSource
  | createBuildUrl
  | streamBuildLogs
  | getBuild
deriving Repr, DecidableEq

/-- The four right-hand statuses of the build state machine; every other
status string falls through the `switch` in `waitForBuild` and polling
continues. -/
def terminalStatus (s : String) : Bool :=
  s == "complete" || s == "error" || s == "failed" || s == "timeout"

/-- `waitForBuild` (src/cmd/convox/builds.go:622), run over the finite list of
successive `GetBuild` poll results. `none` means the list was exhausted with
the loop still polling (the source loops forever; a finite trace that never
reaches a terminal status yields no return). Each consumed poll is recorded
as a `getBuild` event. -/
def waitForBuild (app : String) :
    List (Except String Build) → Option (Except String String) × List Event
  | [] => (none, [])
  | Except.error e :: _ => (some (Except.error e), [Event.getBuild])
  | Except.ok b :: rest =>
    if b.status = "complete" then (some (Except.ok b.release), [Event.getBuild])
    else if b.status = "error" then
      (some (Except.error (app ++ " build failed")), [Event.getBuild])
    else if b.status = "failed" then
      (some (Except.error (app ++ " build failed")), [Event.getBuild])
    else if b.status = "timeout" then
      (some (Except.error (app ++ " build timed out")), [Event.getBuild])
    else
      let r := waitForBuild app rest
      (r.1, Event.getBuild :: r.2)

/-- One file record of `client.Index`: relative path, mode, mtime, size. -/
structure IndexItem where
  name : String
  mode : Nat
  modTime : Nat
  size : Nat
deriving Repr, DecidableEq

/-- `client.Index`: a Go map from content hash to `IndexItem`, modelled as an
association list whose keys stay unique (`indexSet` below is the map write). -/
def Index := List (String × IndexItem)
deriving Repr, DecidableEq

/-- Go map assignment `index[hash] = item`: any previous binding of the key is
replaced. -/
def indexSet (m : Index) (k : String) (v : IndexItem) : Index :=
  List.filter (fun p => p.1 ≠ k) m ++ [(k, v)]

/-- Environment for a build invocation: the result each external call would
return. Functions of the remote service (`rackClient`), the local filesystem
and the local packagers are all inputs; `polls` is the stream of `GetBuild`
answers consumed by `waitForBuild`. -/
structure BuildEnv where
  systemRes : Except String String
  warnRes : Except String Unit
  createIndexRes : Except String Index
  tarballRes : Except String Unit
  indexMissingRes : Except String (List String)
  readIndexFile : String → Except String Unit
  indexUpdateRes : Except String Unit
  createBuildIndexRes : Except String Build
  createBuildSourceRes : Except String Build
  createBuildUrlRes : Except String Build
  streamLogsRes : Except String Unit
  polls : List (Except String Build)

/-- `finishBuild` (src/cmd/convox/builds.go:601): reject an empty build id,
call `StreamBuildLogs` — whose error return IS returned, aborting before any
poll — then hand over to `waitForBuild`. -/
def finishBuild (env : BuildEnv) (app : String) (build : Build) :
    Option (Except String String) × List Event :=
  if build.id = "" then (some (Except.error "unable to fetch build id"), [])
  else
    match env.streamLogsRes with
    | Except.error e => (some (Except.error e), [Event.streamBuildLogs])
    | Except.ok _ =>
      let r := waitForBuild app env.polls
      (r.1, Event.streamBuildLogs :: r.2)

/-- The re-reads `uploadIndex` performs while writing the archive: for each
missing hash it reads `index[m].Name` (a missing key yields Go's zero value,
name `""`); the first failing read aborts. -/
def readMissing (env : BuildEnv) (index : Index) : List String → Except String Unit
  | [] => Except.ok ()
  | m :: rest =>
    match env.readIndexFile ((Option.map IndexItem.name (List.lookup m index)).getD "") with
    | Except.error e => Except.error e
    | Except.ok _ => readMissing env index rest

/-- `uploadIndex` (src/cmd/convox/builds.go:373): ask the remote which hashes
are missing; when none are, return success at once — before the tar/gzip
buffer exists and before `IndexUpdate`; otherwise build the archive from the
missing entries and upload it. -/
def uploadIndex (env : BuildEnv) (index : Index) : Except String Unit × List Event :=
  match env.indexMissingRes with
  | Except.error e => (Except.error e, [Event.indexMissing])
  | Except.ok missing =>
    if missing.length = 0 then (Except.ok (), [Event.indexMissing])
    else
      match readMissing env index missing with
      | Except.error e => (Except.error e, [Event.indexMissing])
      | Except.ok _ =>
        match env.indexUpdateRes with
        | Except.error e =>
          (Except.error e, [Event.indexMissing, Event.buildArchive, Event.indexUpdate])
        | Except.ok _ =>
          (Except.ok (), [Event.indexMissing, Event.buildArchive, Event.indexUpdate])

/-- `executeBuildDir` (src/cmd/convox/builds.go:481): warn about unignored
env files, package the whole tree as a tarball, submit it with
`CreateBuildSourceProgress`, and finish the build. -/
def executeBuildDir (env : BuildEnv) (app : String) :
    Option (Except String String) × List Event :=
  match env.warnRes with
  | Except.error e => (some (Except.error e), [])
  | Except.ok _ =>
    match env.tarballRes with
    | Except.error e => (some (Except.error e), [])
    | Except.ok _ =>
      match env.createBuildSourceRes with
      | Except.error e => (some (Except.error e), [Event.createBuildSource])
      | Except.ok build =>
        let r := finishBuild env app build
        (r.1, Event.createBuildSource :: r.2)

/-- The version literal of the fallback check in `executeBuildDirIncremental`:
racks reporting an older version do not support incremental builds. -/
def minIncrementalVersion : String := "20160226234213"

/-- `executeBuildDirIncremental` (src/cmd/convox/builds.go:437): fetch the
remote system record; when its version is lexicographically below
`minIncrementalVersion`, fall back to `executeBuildDir`; otherwise index the
tree (`createIndex`, whose local failure modes are folded into
`createIndexRes`), upload the missing entries, and submit by index. -/
def executeBuildDirIncremental (env : BuildEnv) (app : String) :
    Option (Except String String) × List Event :=
  match env.systemRes with
  | Except.error e => (some (Except.error e), [Event.getSystem])
  | Except.ok version =>
    if version < minIncrementalVersion then
      let r := executeBuildDir env app
      (r.1, Event.getSystem :: r.2)
    else
      match env.createIndexRes with
      | Except.error e => (some (Except.error e), [Event.getSystem])
      | Except.ok index =>
        let u := uploadIndex env index
        match u.1 with
        | Except.error e => (some (Except.error e), Event.getSystem :: u.2)
        | Except.ok _ =>
          match env.createBuildIndexRes with
          | Except.error e =>
            (some (Except.error e), Event.getSystem :: u.2 ++ [Event.createBuildIndex])
          | Except.ok build =>
            let r := finishBuild env app build
            (r.1, Event.getSystem :: u.2 ++ [Event.createBuildIndex] ++ r.2)

/-- `executeBuildUrl` (src/cmd/convox/builds.go:516). -/
def executeBuildUrl (env : BuildEnv) (app : String) :
    Option (Except String String) × List Event :=
  match env.createBuildUrlRes with
  | Except.error e => (some (Except.error e), [Event.createBuildUrl])
  | Except.ok build =>
    let r := finishBuild env app build
    (r.1, Event.createBuildUrl :: r.2)

/-- `executeBuild` (src/cmd/convox/builds.go:272): dispatch on the scheme
`url.Parse` extracted from the source argument (the parser itself is Go's
standard library; its scheme output is an input here) and on the
`incremental` flag. -/
def executeBuild (env : BuildEnv) (scheme : String) (incremental : Bool) (app : String) :
    Option (Except String String) × List Event :=
  if scheme = "http" ∨ scheme = "https" then executeBuildUrl env app
  else if incremental then executeBuildDirIncremental env app
  else executeBuildDir env app

/-- A build record and an environment where every external call succeeds,
used to instantiate witnesses. -/
def okBuild : Build := ⟨"B1", "complete", "R1"⟩

def baseEnv : BuildEnv :=
  { systemRes := Except.ok "20160301000000"
    warnRes := Except.ok ()
    createIndexRes := Except.ok []
    tarballRes := Except.ok ()
    indexMissingRes := Except.ok []
    readIndexFile := fun _ => Except.ok ()
    indexUpdateRes := Except.ok ()
    createBuildIndexRes := Except.ok okBuild
    createBuildSourceRes := Except.ok okBuild
    createBuildUrlRes := Except.ok okBuild
    streamLogsRes := Except.ok ()
    polls := [Except.ok okBuild] }

/-- An environment whose rack predates incremental-build support. -/
def oldRackEnv : BuildEnv := { baseEnv with systemRes := Except.ok "20150101000000" }

/-- An environment whose log-stream connection fails while the polled status
reports a successful build carrying release `R777`. -/
def brokenStreamEnv : BuildEnv :=
  { baseEnv with
    streamLogsRes := Except.error "stream failed"
    polls := [Except.ok ⟨"B1", "complete", "R777"⟩] }

/-- An environment whose first status poll itself fails. -/
def brokenPollEnv : BuildEnv := { baseEnv with polls := [Except.error "poll refused"] }

/-- A CloudFormation stack parameter. -/
structure Param where
  key : String
  value : String
deriving Repr, DecidableEq

/-- The payload of a CloudFormation UpdateStack call. -/
structure UpdateStackParams where
  stackName : String
  templateBody : String
  parameters : List Param
deriving Repr, DecidableEq

/-- The external calls the release promoter issues. -/
inductive PEvent where
  | getItem
  | appShow
  | describeStacks
  | updateStack (p : UpdateStackParams)
deriving Repr, DecidableEq

/-- A DynamoDB item: attribute name to string value. -/
abbrev Item := List (String × String)

/-- `coalesce`: the attribute's value when the attribute is present, else the
default. -/
def coalesce (a : Option String) (d : String) : String := a.getD d

/-- Environment for the release promoter: results of the DynamoDB read, the
`appParams`/`buildTemplate` collaborators, `AppShow`, `DescribeStacks` and
`UpdateStack`. -/
structure PromoteEnv where
  releaseItem : Except String Item
  appParamsRes : Except String Unit
  templateRes : Except String String
  appShowRes : Except String Unit
  liveParams : Except String (List Param)
  updateStackRes : Except String Unit

/-- `releaseFormation` (src/unnamed/part_000:147): read the release item,
reject an empty or missing `ami` with the invalid-ami error, then fetch app
params and render the `app` template (both collaborators, their results are
environment inputs). `NewManifest`'s value and error are only printed by the
source — they do not affect control flow — so they are not modelled. -/
def releaseFormation (env : PromoteEnv) : Except String String :=
  match env.releaseItem with
  | Except.error e => Except.error e
  | Except.ok drel =>
    if coalesce (List.lookup "ami" drel) "" = "" then Except.error "invalid ami"
    else
      match env.appParamsRes with
      | Except.error e => Except.error e
      | Except.ok _ =>
        match env.templateRes with
        | Except.error e => Except.error e
        | Except.ok t => Except.ok t

/-- `ReleasePromote` (src/unnamed/part_000:75): the `releaseFormation` error
is only PRINTED, never returned, and execution continues with the Go zero
value `""` as the formation; the stack update's parameter set is the live set
returned by DescribeStacks with one `Release` parameter appended. -/
def ReleasePromote (env : PromoteEnv) (cluster app release : String) :
    Except String Unit × List PEvent :=
  let formation :=
    match releaseFormation env with
    | Except.ok f => f
    | Except.error _ => ""
  match env.appShowRes with
  | Except.error e => (Except.error e, [PEvent.getItem, PEvent.appShow])
  | Except.ok _ =>
    match env.liveParams with
    | Except.error e =>
      (Except.error e, [PEvent.getItem, PEvent.appShow, PEvent.describeStacks])
    | Except.ok live =>
      let p : UpdateStackParams :=
        { stackName := cluster ++ "-" ++ app
          templateBody := formation
          parameters := live ++ [⟨"Release", release⟩] }
      (env.updateStackRes,
        [PEvent.getItem, PEvent.appShow, PEvent.describeStacks, PEvent.updateStack p])

/-- Modelled from the spec: `generateId` is code of this repository that is
not under src/ (only its call site `generateId("R", 9)` is). Per the spec it
returns a fixed-length random token after the release-kind leading string;
the randomness is an explicit seed here, rendered as base-36 characters. -/
def idAlphabet : List Char := "ABCDEFGHIJKLMNOPQRSTUVWXYZ0123456789".toList

def generateId (kind : String) (n : Nat) (seed : Nat) : String :=
  kind ++ String.mk ((List.range n).map fun i => idAlphabet.getD ((seed / 36 ^ i) % 36) 'A')

/-- Modelled from the spec: the `SortableTime` format constant is code of
this repository that is not under src/. The spec requires a fixed-format
timestamp string whose lexicographic order equals chronological order; time
is an abstract tick count rendered as a fixed-width zero-padded numeral. -/
def formatSortableTime (t : Nat) : String :=
  String.mk (List.replicate (20 - (Nat.toDigits 10 t).length) '0' ++ Nat.toDigits 10 t)

/-- The calls `ReleaseCopy` issues against the releases table. -/
inductive CEvent where
  | getItem
  | putItem (id : String) (attrs : List (String × String))
deriving Repr, DecidableEq

/-- Environment for `ReleaseCopy`: the DynamoDB read result, the store clock,
the randomness seed, and the PutItem outcome. -/
structure CopyEnv where
  getItemRes : Except String Item
  now : Nat
  seed : Nat
  putItemRes : Except String Unit

/-- `ReleaseCopy` (src/unnamed/part_000:112): read the source item; build the
new attribute list by replacing `id` with a freshly generated token and
`created` with a newly stamped SortableTime value, carrying every other
attribute's value through; persist under the new id. The Go function returns
the pair (id, err) of the PutItem call — ("", err) when the read fails. Go's
map iteration order is unspecified, so the item is a list and the loop a map
over it. -/
def ReleaseCopy (env : CopyEnv) : (String × Except String Unit) × List CEvent :=
  match env.getItemRes with
  | Except.error e => (("", Except.error e), [CEvent.getItem])
  | Except.ok drel =>
    let id := generateId "R" 9 env.seed
    let rel := drel.map fun kv =>
      if kv.1 = "id" then (kv.1, id)
      else if kv.1 = "created" then (kv.1, formatSortableTime env.now)
      else kv
    ((id, env.putItemRes), [CEvent.getItem, CEvent.putItem id rel])

/-- `ReleaseCreate` (src/unnamed/part_000:60): the attribute list persisted
for a new release — the caller's ami, then the literal string "now" under the
key "created-at", then the caller's options (map iteration order unspecified;
a list here). -/
def releaseCreateAttributes (ami : String) (options : List (String × String)) :
    List (String × String) :=
  [("ami", ami), ("created-at", "now")] ++ options

/-- The (key, attributes) pair of the PutItem call `ReleaseCreate` issues:
the item key is the ami itself. -/
def releaseCreatePut (ami : String) (options : List (String × String)) :
    String × List (String × String) :=
  (ami, releaseCreateAttributes ami options)

/-- The include-list computation of `createTarball`
(src/cmd/convox/builds.go:527): start from ["."]; when the dockerignore
rules match ".dockerignore" or "Dockerfile" (`matcher` stands for docker's
`fileutils.Matches`, an external collaborator; its error return is discarded
by the source), BOTH files are appended as explicit includes. -/
def tarballIncludes (matcher : String → List String → Bool)
    (excludes : List String) : List String :=
  let includes := ["."]
  if matcher ".dockerignore" excludes || matcher "Dockerfile" excludes then
    includes ++ [".dockerignore", "Dockerfile"]
  else includes

/-- One node visited by the `filepath.Walk` traversal inside `createIndex`:
root-relative path, directory flag, raw content bytes, mode, mtime. -/
structure WalkFile where
  rel : String
  isDir : Bool
  data : List Nat
  mode : Nat
  modTime : Nat
deriving Repr, DecidableEq

/-- `indexWalker` (src/cmd/convox/builds.go:315) at a single visited node:
directories and ignore-rule matcher are skipped; otherwise the content is
hashed (`hash` stands for the hex-encoded sha256 of crypto/sha256, a pure
function of the raw bytes) and the file is recorded in the index keyed by
that hash. -/
def indexWalkerStep (hash : List Nat → String)
    (matcher : String → List String → Bool) (ignore : List String)
    (index : Index) (f : WalkFile) : Index :=
  if f.isDir then index
  else if matcher f.rel ignore then index
  else indexSet index (hash f.data) ⟨f.rel, f.mode, f.modTime, f.data.length⟩

/-- The whole walk of `createIndex` (src/cmd/convox/builds.go:289): fold the
walker over the visited nodes starting from the empty index. -/
def buildIndex (hash : List Nat → String)
    (matcher : String → List String → Bool) (ignore : List String)
    (files : List WalkFile) : Index :=
  files.foldl (indexWalkerStep hash matcher ignore) []

/-- A promoter environment where every external call succeeds and the live
stack carries one InstanceType parameter. -/
def promoteEnvOk : PromoteEnv :=
  { releaseItem := Except.ok [("id", "R1"), ("ami", "ami-x"), ("manifest", "web: image")]
    appParamsRes := Except.ok ()
    templateRes := Except.ok "TEMPLATE"
    appShowRes := Except.ok ()
    liveParams := Except.ok [⟨"InstanceType", "t2.small"⟩]
    updateStackRes := Except.ok () }

/-- A promoter environment whose release record has no ami attribute. -/
def invalidAmiEnv : PromoteEnv :=
  { releaseItem := Except.ok [("id", "R1"), ("manifest", "web: image")]
    appParamsRes := Except.ok ()
    templateRes := Except.ok "TEMPLATE"
    appShowRes := Except.ok ()
    liveParams := Except.ok []
    updateStackRes := Except.ok () }

/-- A copy environment over a four-attribute source release. -/
def copyEnv0 : CopyEnv :=
  { getItemRes := Except.ok [("id", "R1"), ("ami", "ami-x"), ("created", "T1"), ("foo", "bar")]
    now := 5
    seed := 0
    putItemRes := Except.ok () }

/-- Two walk nodes at different paths with byte-identical content, and a toy
stand-in digest for witnesses. -/
def wf1 : WalkFile := ⟨"a.txt", false, [1, 2], 420, 0⟩

def wf2 : WalkFile := ⟨"b.txt", false, [1, 2], 420, 0⟩

def toyHash (d : List Nat) : String :=
  Nat.repr (d.foldl (fun a b => a * 31 + b) 7)

/-- C1: over any finite poll trace whose first terminal status is carried by
build record `b` (every earlier poll succeeded with a non-terminal status),
`waitForBuild` returns exactly `b`'s release field when that status is
`complete`, a build-failed error naming the application on `error`/`failed`,
and a build-timed-out error on `timeout`; and on a trace of only non-terminal
statuses it produces no return at all (polling continues). -/
theorem waitForBuild_first_terminal (app : String)
    (pre rest : List (Except String Build)) (b : Build)
    (hpre : ∀ r ∈ pre, ∃ b', r = Except.ok b' ∧ terminalStatus b'.status = false)
    (hb : terminalStatus b.status = true) :
    ((b.status = "complete" →
        (waitForBuild app (pre ++ Except.ok b :: rest)).1 = some (Except.ok b.release)) ∧
      (b.status = "error" ∨ b.status = "failed" →
        (waitForBuild app (pre ++ Except.ok b :: rest)).1 =
          some (Except.error (app ++ " build failed"))) ∧
      (b.status = "timeout" →
        (waitForBuild app (pre ++ Except.ok b :: rest)).1 =
          some (Except.error (app ++ " build timed out")))) ∧
    (waitForBuild app pre).1 = none := by
  induction pre with
  | nil =>
    refine ⟨⟨?_, ?_, ?_⟩, rfl⟩
    · intro h; simp [waitForBuild, h]
    · rintro (h | h) <;> simp [waitForBuild, h]
    · intro h
      have h1 : b.status ≠ "complete" := by intro hc; rw [hc] at h; simp at h
      have h2 : b.status ≠ "error" := by intro hc; rw [hc] at h; simp at h
      have h3 : b.status ≠ "failed" := by intro hc; rw [hc] at h; simp at h
      simp [waitForBuild, h, h1, h2, h3]
  | cons hd tl ih =>
    obtain ⟨b', rfl, hterm⟩ := hpre hd (List.mem_cons_self hd tl)
    have htl : ∀ r ∈ tl, ∃ b'', r = Except.ok b'' ∧ terminalStatus b''.status = false :=
      fun r hr => hpre r (List.mem_cons_of_mem _ hr)
    have := ih htl
    simp only [terminalStatus, Bool.or_eq_false_iff, beq_eq_false_iff_ne, ne_eq] at hterm
    obtain ⟨⟨⟨hn1, hn2⟩, hn3⟩, hn4⟩ := hterm
    constructor
    · refine ⟨?_, ?_, ?_⟩
      · intro h
        simp only [List.cons_append, waitForBuild, hn1, hn2, hn3, hn4, if_false]
        exact this.1.1 h
      · intro h
        simp only [List.cons_append, waitForBuild, hn1, hn2, hn3, hn4, if_false]
        exact this.1.2.1 h
      · intro h
        simp only [List.cons_append, waitForBuild, hn1, hn2, hn3, hn4, if_false]
        exact this.1.2.2 h
    · simp only [waitForBuild, hn1, hn2, hn3, hn4, if_false]
      exact this.2

/-- Every event the polling loop records is a `getBuild`. -/
theorem waitForBuild_events (app : String) (polls : List (Except String Build)) :
    ∀ x ∈ (waitForBuild app polls).2, x = Event.getBuild := by
  induction polls with
  | nil => simp [waitForBuild]
  | cons hd tl ih =>
    cases hd with
    | error e => simp [waitForBuild]
    | ok b =>
      simp only [waitForBuild]
      split
      · simp
      · split
        · simp
        · split
          · simp
          · split
            · simp
            · intro x hx
              simp only [List.mem_cons] at hx
              rcases hx with rfl | hx
              · rfl
              · exact ih x hx

/-- `finishBuild` never issues a missing-hash query. -/
theorem indexMissing_not_in_finishBuild (env : BuildEnv) (app : String) (build : Build) :
    Event.indexMissing ∉ (finishBuild env app build).2 := by
  unfold finishBuild
  split
  · simp
  · cases hs : env.streamLogsRes with
    | error e => simp
    | ok u =>
      intro hmem
      simp only [List.mem_cons] at hmem
      rcases hmem with h | h
      · exact Event.noConfusion h
      · exact Event.noConfusion (waitForBuild_events app env.polls _ h)

/-- The full-tarball strategy never issues a missing-hash query. -/
theorem indexMissing_not_in_executeBuildDir (env : BuildEnv) (app : String) :
    Event.indexMissing ∉ (executeBuildDir env app).2 := by
  unfold executeBuildDir
  cases env.warnRes with
  | error e => simp
  | ok u =>
    cases env.tarballRes with
    | error e => simp
    | ok u' =>
      cases env.createBuildSourceRes with
      | error e => simp
      | ok build =>
        intro hmem
        simp only [List.mem_cons] at hmem
        rcases hmem with h | h
        · exact Event.noConfusion h
        · exact indexMissing_not_in_finishBuild env app build h

/-- C2: a build submitted from a local directory with the incremental flag
set, against a rack whose reported version is below the minimum
incremental-support version, is executed by the full-tarball strategy
(`executeBuildDir`, after only the `GetSystem` probe), and no `IndexMissing`
query is ever issued. -/
theorem executeBuild_incremental_downgrade (env : BuildEnv) (scheme app v : String)
    (hs1 : scheme ≠ "http") (hs2 : scheme ≠ "https")
    (hv : env.systemRes = Except.ok v)
    (hlt : v < minIncrementalVersion) :
    executeBuild env scheme true app =
      ((executeBuildDir env app).1, Event.getSystem :: (executeBuildDir env app).2) ∧
    Event.indexMissing ∉ (executeBuild env scheme true app).2 := by
  have hdisp : executeBuild env scheme true app =
      ((executeBuildDir env app).1, Event.getSystem :: (executeBuildDir env app).2) := by
    simp [executeBuild, executeBuildDirIncremental, hv, hs1, hs2, hlt]
  refine ⟨hdisp, ?_⟩
  rw [hdisp]
  intro hmem
  simp only [List.mem_cons] at hmem
  rcases hmem with h | h
  · exact Event.noConfusion h
  · exact indexMissing_not_in_executeBuildDir env app h

/-- C4: when the remote reports an empty missing set, `uploadIndex` succeeds
immediately: its event trace is the single `IndexMissing` probe — no archive
is built and no `IndexUpdate` upload is issued. -/
theorem uploadIndex_zero_diff (env : BuildEnv) (index : Index)
    (hm : env.indexMissingRes = Except.ok []) :
    uploadIndex env index = (Except.ok (), [Event.indexMissing]) ∧
    Event.buildArchive ∉ (uploadIndex env index).2 ∧
    Event.indexUpdate ∉ (uploadIndex env index).2 := by
  have h : uploadIndex env index = (Except.ok (), [Event.indexMissing]) := by
    simp [uploadIndex, hm]
  refine ⟨h, ?_, ?_⟩ <;> rw [h] <;> simp

/-- C2 witness: a concrete pre-incremental rack version. -/
theorem executeBuild_incremental_downgrade_witness :
    executeBuild oldRackEnv "" true "myapp" =
      ((executeBuildDir oldRackEnv "myapp").1,
        Event.getSystem :: (executeBuildDir oldRackEnv "myapp").2) ∧
    Event.indexMissing ∉ (executeBuild oldRackEnv "" true "myapp").2 :=
  executeBuild_incremental_downgrade oldRackEnv "" "myapp" "20150101000000"
    (by decide) (by decide) rfl (String.lt_iff_toList_lt.mpr (by decide))

/-- C4 witness: the base environment reports nothing missing. -/
theorem uploadIndex_zero_diff_witness :
    uploadIndex baseEnv [] = (Except.ok (), [Event.indexMissing]) ∧
    Event.buildArchive ∉ (uploadIndex baseEnv []).2 ∧
    Event.indexUpdate ∉ (uploadIndex baseEnv []).2 :=
  uploadIndex_zero_diff baseEnv [] rfl

/-- C6 counterexample: with the log stream broken, the polled terminal status
is `complete` with release `R777`, yet `finishBuild` returns the stream error
— and never polls at all — so the outcome is NOT determined solely by the
polled terminal status. -/
theorem finishBuild_stream_error_counterexample :
    (waitForBuild "myapp" brokenStreamEnv.polls).1 = some (Except.ok "R777") ∧
    (finishBuild brokenStreamEnv "myapp" ⟨"B1", "running", ""⟩).1 =
      some (Except.error "stream failed") ∧
    Event.getBuild ∉ (finishBuild brokenStreamEnv "myapp" ⟨"B1", "running", ""⟩).2 :=
  ⟨rfl, rfl, by decide⟩

/-- C6 (amended): a log-stream connection failure IS escalated: `finishBuild`
returns the stream error without issuing a single status poll; a failure of
the status-polling call itself is likewise immediately fatal. -/
theorem finishBuild_stream_error_fatal (env env' : BuildEnv) (app : String)
    (build : Build) (e e' : String) (rest : List (Except String Build))
    (hid : build.id ≠ "")
    (hstream : env.streamLogsRes = Except.error e)
    (hstream' : env'.streamLogsRes = Except.ok ())
    (hpolls' : env'.polls = Except.error e' :: rest) :
    ((finishBuild env app build).1 = some (Except.error e) ∧
      Event.getBuild ∉ (finishBuild env app build).2) ∧
    (finishBuild env' app build).1 = some (Except.error e') := by
  refine ⟨⟨?_, ?_⟩, ?_⟩
  · simp [finishBuild, hid, hstream]
  · simp [finishBuild, hid, hstream]
  · simp [finishBuild, hid, hstream', hpolls', waitForBuild]

/-- C6 (amended) witness: concrete broken-stream and broken-poll runs. -/
theorem finishBuild_stream_error_fatal_witness :
    ((finishBuild brokenStreamEnv "myapp" ⟨"B1", "running", ""⟩).1 =
        some (Except.error "stream failed") ∧
      Event.getBuild ∉ (finishBuild brokenStreamEnv "myapp" ⟨"B1", "running", ""⟩).2) ∧
    (finishBuild brokenPollEnv "myapp" ⟨"B1", "running", ""⟩).1 =
      some (Except.error "poll refused") :=
  finishBuild_stream_error_fatal brokenStreamEnv brokenPollEnv "myapp"
    ⟨"B1", "running", ""⟩ "stream failed" "poll refused" []
    (by decide) rfl rfl rfl

/-- C1 witness: a concrete trace, one non-terminal poll then `complete`. -/
theorem waitForBuild_first_terminal_witness :
    (waitForBuild "myapp"
        [Except.ok ⟨"B1", "building", ""⟩, Except.ok ⟨"B1", "complete", "R123"⟩]).1 =
      some (Except.ok "R123") :=
  (waitForBuild_first_terminal "myapp" [Except.ok ⟨"B1", "building", ""⟩] []
      ⟨"B1", "complete", "R123"⟩
      (by intro r hr
          simp only [List.mem_singleton] at hr
          exact ⟨⟨"B1", "building", ""⟩, hr, by decide⟩)
      (by decide)).1.1 rfl

/-- C3: whenever `ReleasePromote` reaches the stack update (AppShow and
DescribeStacks succeeded), the UpdateStack request it issues carries a
parameter set equal to the live set returned by DescribeStacks plus exactly
one appended parameter keyed `Release` valued with the target release id, no
other entry altered or removed (and this holds whatever `releaseFormation`
returned). -/
theorem releasePromote_params (env : PromoteEnv) (cluster app release : String)
    (live : List Param)
    (ha : env.appShowRes = Except.ok ())
    (hl : env.liveParams = Except.ok live) :
    ∃ tb, (ReleasePromote env cluster app release).2 =
      [PEvent.getItem, PEvent.appShow, PEvent.describeStacks,
        PEvent.updateStack
          ⟨cluster ++ "-" ++ app, tb, live ++ [⟨"Release", release⟩]⟩] := by
  refine ⟨(match releaseFormation env with
    | Except.ok f => f
    | Except.error _ => ""), ?_⟩
  simp [ReleasePromote, ha, hl]

/-- C3 witness: the spec's own example — live set `[{InstanceType,t2.small}]`
and release `R9`. -/
theorem releasePromote_params_witness :
    ∃ tb, (ReleasePromote promoteEnvOk "c" "a" "R9").2 =
      [PEvent.getItem, PEvent.appShow, PEvent.describeStacks,
        PEvent.updateStack
          ⟨"c" ++ "-" ++ "a", tb,
            [⟨"InstanceType", "t2.small"⟩] ++ [⟨"Release", "R9"⟩]⟩] :=
  releasePromote_params promoteEnvOk "c" "a" "R9" [⟨"InstanceType", "t2.small"⟩] rfl rfl

/-- C7: at a release record lacking an ami, `releaseFormation` does produce
the invalid-ami error, but `ReleasePromote` only prints it — the call still
issues the UpdateStack request (with the zero-value empty template body) and
reports success, contradicting the claim and the spec's stated intent. -/
theorem releasePromote_invalid_ami_still_updates :
    releaseFormation invalidAmiEnv = Except.error "invalid ami" ∧
    (ReleasePromote invalidAmiEnv "c" "a" "R1").1 = Except.ok () ∧
    (ReleasePromote invalidAmiEnv "c" "a" "R1").2 =
      [PEvent.getItem, PEvent.appShow, PEvent.describeStacks,
        PEvent.updateStack ⟨"c-a", "", [⟨"Release", "R1"⟩]⟩] :=
  ⟨rfl, rfl, rfl⟩

/-- C5: `ReleaseCopy` over a source item holding id `oldId` persists, under a
freshly generated id — the release-kind letter `R` followed by a fixed-length
9-character token, distinct from `oldId` whenever the drawn token differs —
an item whose `created` attribute is newly stamped from the store clock in
the sortable format and in which every attribute other than `id` and
`created`, the ami in particular, is carried through unchanged. -/
theorem releaseCopy_fresh_id_carries_fields (env : CopyEnv)
    (drel : Item) (oldId : String)
    (hg : env.getItemRes = Except.ok drel)
    (hid : ("id", oldId) ∈ drel)
    (hfresh : generateId "R" 9 env.seed ≠ oldId) :
    ∃ rel,
      (ReleaseCopy env).2 =
        [CEvent.getItem, CEvent.putItem (generateId "R" 9 env.seed) rel] ∧
      (∃ t : List Char, generateId "R" 9 env.seed = String.mk ('R' :: t) ∧
        t.length = 9) ∧
      generateId "R" 9 env.seed ≠ oldId ∧
      ("id", generateId "R" 9 env.seed) ∈ rel ∧
      (∀ kv ∈ rel, kv.1 = "created" → kv.2 = formatSortableTime env.now) ∧
      (∀ kv ∈ drel, kv.1 ≠ "id" → kv.1 ≠ "created" → kv ∈ rel) := by
  refine ⟨drel.map fun kv =>
      if kv.1 = "id" then (kv.1, generateId "R" 9 env.seed)
      else if kv.1 = "created" then (kv.1, formatSortableTime env.now)
      else kv, ?_, ?_, hfresh, ?_, ?_, ?_⟩
  · simp [ReleaseCopy, hg]
  · refine ⟨(List.range 9).map fun i => idAlphabet.getD ((env.seed / 36 ^ i) % 36) 'A',
      rfl, by simp⟩
  · refine List.mem_map.mpr ⟨("id", oldId), hid, ?_⟩
    simp
  · intro kv hkv hcreated
    obtain ⟨kv₀, hkv₀, rfl⟩ := List.mem_map.mp hkv
    by_cases h1 : kv₀.1 = "id"
    · simp only [h1, if_true] at hcreated ⊢
      exact absurd hcreated (by simp [h1])
    · by_cases h2 : kv₀.1 = "created"
      · simp [h1, h2]
      · simp only [h1, h2, if_false] at hcreated
  · intro kv hkv h1 h2
    refine List.mem_map.mpr ⟨kv, hkv, ?_⟩
    simp [h1, h2]

/-- C5 witness: a concrete four-attribute source release, seed 0, clock 5. -/
theorem releaseCopy_fresh_id_carries_fields_witness :
    ∃ rel,
      (ReleaseCopy copyEnv0).2 =
        [CEvent.getItem, CEvent.putItem (generateId "R" 9 copyEnv0.seed) rel] ∧
      (∃ t : List Char, generateId "R" 9 copyEnv0.seed = String.mk ('R' :: t) ∧
        t.length = 9) ∧
      generateId "R" 9 copyEnv0.seed ≠ "R1" ∧
      ("id", generateId "R" 9 copyEnv0.seed) ∈ rel ∧
      (∀ kv ∈ rel, kv.1 = "created" → kv.2 = formatSortableTime copyEnv0.now) ∧
      (∀ kv ∈ [("id", "R1"), ("ami", "ami-x"), ("created", "T1"), ("foo", "bar")],
        kv.1 ≠ "id" → kv.1 ≠ "created" → kv ∈ rel) :=
  releaseCopy_fresh_id_carries_fields copyEnv0
    [("id", "R1"), ("ami", "ami-x"), ("created", "T1"), ("foo", "bar")] "R1"
    rfl (by decide) (by decide)

/-- C8: the attribute list `ReleaseCreate` persists (here at ami `ami-123`
with no options) carries its timestamp as the literal string "now" under the
key "created-at" — not a store-stamped sortable timestamp, and not even under
the "created" key that `ReleaseList` parses with the SortableTime format —
so the record the store persists contradicts the claim. -/
theorem releaseCreate_literal_now :
    releaseCreatePut "ami-123" [] =
      ("ami-123", [("ami", "ami-123"), ("created-at", "now")]) ∧
    (∀ kv ∈ releaseCreateAttributes "ami-123" [], kv.1 ≠ "created") ∧
    (∀ kv ∈ releaseCreateAttributes "ami-123" [],
      kv.1 = "created-at" → kv.2 = "now") := by
  refine ⟨rfl, ?_, ?_⟩ <;> decide

/-- C9: whenever the ignore rules match the ignore file itself or the build
definition file, `createTarball`'s include list force-includes both of them. -/
theorem tarballIncludes_force_include (matcher : String → List String → Bool)
    (excludes : List String)
    (h : matcher ".dockerignore" excludes = true ∨ matcher "Dockerfile" excludes = true) :
    ".dockerignore" ∈ tarballIncludes matcher excludes ∧
    "Dockerfile" ∈ tarballIncludes matcher excludes := by
  rcases h with h | h <;> simp [tarballIncludes, h]

/-- C9 witness: an exclude list that names the ignore file itself. -/
theorem tarballIncludes_force_include_witness :
    ".dockerignore" ∈ tarballIncludes (fun s l => l.contains s) [".dockerignore"] ∧
    "Dockerfile" ∈ tarballIncludes (fun s l => l.contains s) [".dockerignore"] :=
  tarballIncludes_force_include (fun s l => l.contains s) [".dockerignore"]
    (Or.inl (by decide))

/-- Writing a key into the index keeps the key list duplicate-free. -/
theorem indexSet_keys_nodup (m : Index) (k : String) (v : IndexItem)
    (h : (m.map Prod.fst).Nodup) : ((indexSet m k v).map Prod.fst).Nodup := by
  simp only [indexSet, List.map_append, List.map_cons, List.map_nil]
  rw [List.nodup_append]
  refine ⟨((List.filter_sublist m).map Prod.fst).nodup h, List.nodup_singleton k, ?_⟩
  intro x hx hx'
  simp only [List.mem_singleton] at hx'
  subst hx'
  obtain ⟨p, hp, rfl⟩ := List.mem_map.mp hx
  have := List.of_mem_filter hp
  simp at this

/-- Writing a key into the index keeps every existing key present. -/
theorem indexSet_key_mem (m : Index) (k k' : String) (v : IndexItem)
    (h : k' ∈ m.map Prod.fst) : k' ∈ (indexSet m k v).map Prod.fst := by
  by_cases hk : k' = k
  · subst hk
    simp [indexSet]
  · simp only [indexSet, List.map_append, List.mem_append]
    left
    obtain ⟨p, hp, rfl⟩ := List.mem_map.mp h
    exact List.mem_map.mpr ⟨p, List.mem_filter.mpr ⟨hp, by simpa using hk⟩, rfl⟩

/-- One walker step keeps the key list duplicate-free. -/
theorem indexWalkerStep_keys_nodup (hash : List Nat → String)
    (matcher : String → List String → Bool) (ignore : List String)
    (m : Index) (f : WalkFile) (h : (m.map Prod.fst).Nodup) :
    ((indexWalkerStep hash matcher ignore m f).map Prod.fst).Nodup := by
  unfold indexWalkerStep
  split
  · exact h
  · split
    · exact h
    · exact indexSet_keys_nodup m _ _ h

/-- One walker step keeps every existing key present. -/
theorem indexWalkerStep_key_mem (hash : List Nat → String)
    (matcher : String → List String → Bool) (ignore : List String)
    (m : Index) (f : WalkFile) (k : String) (h : k ∈ m.map Prod.fst) :
    k ∈ (indexWalkerStep hash matcher ignore m f).map Prod.fst := by
  unfold indexWalkerStep
  split
  · exact h
  · split
    · exact h
    · exact indexSet_key_mem m _ k _ h

/-- The walk fold keeps the key list duplicate-free. -/
theorem walk_keys_nodup (hash : List Nat → String)
    (matcher : String → List String → Bool) (ignore : List String)
    (files : List WalkFile) (m : Index) (h : (m.map Prod.fst).Nodup) :
    ((files.foldl (indexWalkerStep hash matcher ignore) m).map Prod.fst).Nodup := by
  induction files generalizing m with
  | nil => exact h
  | cons f fs ih =>
    exact ih _ (indexWalkerStep_keys_nodup hash matcher ignore m f h)

/-- The walk fold keeps every existing key present. -/
theorem walk_key_mem (hash : List Nat → String)
    (matcher : String → List String → Bool) (ignore : List String)
    (files : List WalkFile) (m : Index) (k : String) (h : k ∈ m.map Prod.fst) :
    k ∈ (files.foldl (indexWalkerStep hash matcher ignore) m).map Prod.fst := by
  induction files generalizing m with
  | nil => exact h
  | cons f fs ih =>
    exact ih _ (indexWalkerStep_key_mem hash matcher ignore m f k h)

/-- C10: two non-ignored regular files with byte-identical contents at
different paths receive the same content hash (the digest reads only the
bytes), and the index produced by the walk holds exactly one entry under
that hash — deduplication across paths. -/
theorem index_dedup (hash : List Nat → String)
    (matcher : String → List String → Bool) (ignore : List String)
    (files : List WalkFile) (f1 f2 : WalkFile)
    (h1 : f1 ∈ files) (h2 : f2 ∈ files)
    (hd1 : f1.isDir = false) (hd2 : f2.isDir = false)
    (hi1 : matcher f1.rel ignore = false) (hi2 : matcher f2.rel ignore = false)
    (hdata : f1.data = f2.data) (hpath : f1.rel ≠ f2.rel) :
    hash f1.data = hash f2.data ∧
    (buildIndex hash matcher ignore files).countP
      (fun p => p.1 == hash f1.data) = 1 := by
  refine ⟨congrArg hash hdata, ?_⟩
  obtain ⟨as, bs, rfl⟩ := List.append_of_mem h1
  have hsplit : buildIndex hash matcher ignore (as ++ f1 :: bs) =
      bs.foldl (indexWalkerStep hash matcher ignore)
        (indexWalkerStep hash matcher ignore
          (as.foldl (indexWalkerStep hash matcher ignore) []) f1) := by
    simp [buildIndex, List.foldl_append]
  have hnodupAs : ((as.foldl (indexWalkerStep hash matcher ignore) []).map Prod.fst).Nodup :=
    walk_keys_nodup hash matcher ignore as [] (by simp)
  have hstep : indexWalkerStep hash matcher ignore
      (as.foldl (indexWalkerStep hash matcher ignore) []) f1 =
      indexSet (as.foldl (indexWalkerStep hash matcher ignore) [])
        (hash f1.data) ⟨f1.rel, f1.mode, f1.modTime, f1.data.length⟩ := by
    simp [indexWalkerStep, hd1, hi1]
  have hmem : hash f1.data ∈
      ((indexWalkerStep hash matcher ignore
        (as.foldl (indexWalkerStep hash matcher ignore) []) f1).map Prod.fst) := by
    rw [hstep]
    simp [indexSet]
  have hnodupStep : ((indexWalkerStep hash matcher ignore
      (as.foldl (indexWalkerStep hash matcher ignore) []) f1).map Prod.fst).Nodup :=
    indexWalkerStep_keys_nodup hash matcher ignore _ f1 hnodupAs
  have hmemFinal : hash f1.data ∈
      (buildIndex hash matcher ignore (as ++ f1 :: bs)).map Prod.fst := by
    rw [hsplit]
    exact walk_key_mem hash matcher ignore bs _ _ hmem
  have hnodupFinal : ((buildIndex hash matcher ignore (as ++ f1 :: bs)).map Prod.fst).Nodup := by
    rw [hsplit]
    exact walk_keys_nodup hash matcher ignore bs _ hnodupStep
  have hcount : ((buildIndex hash matcher ignore (as ++ f1 :: bs)).map Prod.fst).count
      (hash f1.data) = 1 :=
    List.count_eq_one_of_mem hnodupFinal hmemFinal
  calc (buildIndex hash matcher ignore (as ++ f1 :: bs)).countP
        (fun p => p.1 == hash f1.data)
      = ((buildIndex hash matcher ignore (as ++ f1 :: bs)).map Prod.fst).countP
        (fun x => x == hash f1.data) := by
        rw [List.countP_map]
        rfl
    _ = 1 := hcount

/-- C10 witness: two byte-identical files at different paths, the walk over
just those two, and a toy stand-in digest. -/
theorem index_dedup_witness :
    toyHash wf1.data = toyHash wf2.data ∧
    (buildIndex toyHash (fun s l => l.contains s) [] [wf1, wf2]).countP
      (fun p => p.1 == toyHash wf1.data) = 1 :=
  index_dedup toyHash (fun s l => l.contains s) [] [wf1, wf2] wf1 wf2
    (by decide) (by decide) rfl rfl (by decide) (by decide) rfl (by decide)

end Rack
